import Mathlib

/-!
Shallow embedding of the GraphService authentication core
(repository `teams-mcp`, file `src/services/graph.ts`).

The embedding works over explicit state passing: JavaScript strings are
modelled as `String`/`List Char`, `undefined`-or-value results as `Option`,
thrown exceptions as `Except` errors or `Option.none`, and the two external
collaborators (the MSAL token issuer and the Graph probe call) as per-call
outcome oracles.
-/

/-- The Microsoft Graph audience string required by `validateToken`. -/
def GRAPH_AUDIENCE : String := "https://graph.microsoft.com"

/-- The fixed client-credential scope (`CLIENT_CREDENTIAL_SCOPE` in the source). -/
def CLIENT_CREDENTIAL_SCOPE : String := "https://graph.microsoft.com/.default"

/-! ### JavaScript `String.prototype.split` with a one-character separator -/

/-- `splitOnChar c l` is JavaScript `l.split(c)` for a single-character
separator: `"".split(".") = [""]`, `".".split(".") = ["", ""]`,
`"a.b".split(".") = ["a","b"]`. -/
def splitOnChar (sep : Char) : List Char → List (List Char)
  | [] => [[]]
  | x :: xs =>
    match splitOnChar sep xs with
    | [] => [[]]
    | r :: rs => if x == sep then [] :: r :: rs else (x :: r) :: rs

/-! ### `atob`: forgiving base64 decoding (WHATWG, as implemented by Node) -/

/-- ASCII whitespace stripped by forgiving-base64 decoding: tab, line
feed, form feed, carriage return and space. -/
def isB64Ws (c : Char) : Bool :=
  [9, 10, 12, 13, 32].contains c.toNat

/-- Value of one base64 alphabet character; `none` for characters outside
the alphabet (which make `atob` throw). -/
def b64Val (c : Char) : Option Nat :=
  if 'A' ≤ c ∧ c ≤ 'Z' then some (c.toNat - 65)
  else if 'a' ≤ c ∧ c ≤ 'z' then some (c.toNat - 97 + 26)
  else if '0' ≤ c ∧ c ≤ '9' then some (c.toNat - 48 + 52)
  else if c == '+' then some 62
  else if c == '/' then some 63
  else none

/-- Remove one or two trailing `=` padding characters. -/
def stripB64Padding (l : List Char) : List Char :=
  match l.reverse with
  | '=' :: '=' :: rest => rest.reverse
  | '=' :: rest => rest.reverse
  | _ => l

/-- Turn a list of 6-bit values into the decoded bytes; a leftover group of
three values yields two bytes, a leftover group of two yields one byte, a
leftover single value is invalid. -/
def b64Chunks : List Nat → Option (List Nat)
  | [] => some []
  | [a, b] => some [a * 4 + b / 16]
  | [a, b, c] => some [a * 4 + b / 16, b % 16 * 16 + c / 4]
  | a :: b :: c :: d :: rest =>
    match b64Chunks rest with
    | none => none
    | some tail =>
      some ((a * 4 + b / 16) :: (b % 16 * 16 + c / 4) :: (c % 4 * 64 + d) :: tail)
  | [_] => none

/-- `atob decoded = some bytes` models a successful JavaScript `atob` call on
the string; `none` models the thrown `InvalidCharacterError`. Each output
byte is a character with code point below 256 (a JS binary string). -/
def atob (s : List Char) : Option (List Char) :=
  let data := s.filter (fun c => !isB64Ws c)
  let data := if data.length % 4 == 0 then stripB64Padding data else data
  if data.length % 4 == 1 then none
  else
    match data.mapM b64Val with
    | none => none
    | some vals =>
      match b64Chunks vals with
      | none => none
      | some bytes => some (bytes.map Char.ofNat)

/-! ### JSON values and `JSON.parse` -/

/-- JSON values as produced by `JSON.parse`. Numbers keep their source
lexeme: no claim ever compares two numbers, only values against the audience
string. -/
inductive Json where
  | null
  | bool (b : Bool)
  | num (lexeme : String)
  | str (s : String)
  | arr (elems : List Json)
  | obj (fields : List (String × Json))

/-- JavaScript strict equality of a JSON value against a string primitive:
true exactly for the equal string. -/
def Json.eqStr : Json → String → Bool
  | .str s, t => s == t
  | _, _ => false

/-- JSON insignificant whitespace: space, tab, line feed, carriage
return. -/
def jsonWs (c : Char) : Bool :=
  [32, 9, 10, 13].contains c.toNat

/-- Drop leading JSON whitespace. -/
def skipWs : List Char → List Char
  | c :: rest => if jsonWs c then skipWs rest else c :: rest
  | [] => []

/-- Value of a hexadecimal digit (either case accepted). -/
def hexVal (c : Char) : Option Nat :=
  let n := c.toNat
  if 48 ≤ n ∧ n ≤ 57 then some (n - 48)
  else if 97 ≤ n ∧ n ≤ 102 then some (n - 87)
  else if 65 ≤ n ∧ n ≤ 70 then some (n - 55)
  else none

/-- Parse exactly four hexadecimal digits into one code unit (Horner
form). -/
def parseHex4 : List Char → Option (Nat × List Char)
  | a :: b :: c :: d :: rest =>
    match hexVal a, hexVal b, hexVal c, hexVal d with
    | some va, some vb, some vc, some vd =>
      some (((va * 16 + vb) * 16 + vc) * 16 + vd, rest)
    | _, _, _, _ => none
  | _ => none

/-- Single-character JSON string escapes; the named codes are backspace,
form feed, line feed, carriage return and tab. -/
def escChar : Char → Option Char
  | '"' => some '"'
  | '\\' => some '\\'
  | '/' => some '/'
  | 'b' => some (Char.ofNat 8)
  | 'f' => some (Char.ofNat 12)
  | 'n' => some (Char.ofNat 10)
  | 'r' => some (Char.ofNat 13)
  | 't' => some (Char.ofNat 9)
  | _ => none

/-- Parse the body of a JSON string (opening quote already consumed) into
UTF-16 code units plus the remaining input. -/
def parseStringUnits : Nat → List Char → Option (List Nat × List Char)
  | 0, _ => none
  | _ + 1, [] => none
  | fuel + 1, c :: rest =>
    if c == '"' then some ([], rest)
    else if c == '\\' then
      match rest with
      | [] => none
      | e :: rest2 =>
        if e == 'u' then
          match parseHex4 rest2 with
          | none => none
          | some (n, rest3) =>
            match parseStringUnits fuel rest3 with
            | none => none
            | some (us, rem) => some (n :: us, rem)
        else
          match escChar e with
          | none => none
          | some ch =>
            match parseStringUnits fuel rest2 with
            | none => none
            | some (us, rem) => some (ch.toNat :: us, rem)
    else if c.toNat < 32 then none
    else
      match parseStringUnits fuel rest with
      | none => none
      | some (us, rem) => some (c.toNat :: us, rem)

/-- Combine UTF-16 code units into characters; a surrogate that does not
form a pair stands for a code point Lean characters cannot hold and is
mapped to U+FFFD. -/
def unitsToChars : List Nat → List Char
  | [] => []
  | u :: us =>
    if 0xD800 ≤ u ∧ u ≤ 0xDBFF then
      match us with
      | v :: us2 =>
        if 0xDC00 ≤ v ∧ v ≤ 0xDFFF then
          Char.ofNat (0x10000 + (u - 0xD800) * 1024 + (v - 0xDC00)) :: unitsToChars us2
        else Char.ofNat 0xFFFD :: unitsToChars (v :: us2)
      | [] => [Char.ofNat 0xFFFD]
    else if 0xDC00 ≤ u ∧ u ≤ 0xDFFF then Char.ofNat 0xFFFD :: unitsToChars us
    else Char.ofNat u :: unitsToChars us

/-- Longest prefix of decimal digits. -/
def parseDigits : List Char → List Char × List Char
  | c :: rest =>
    if '0' ≤ c ∧ c ≤ '9' then
      let (ds, rem) := parseDigits rest
      (c :: ds, rem)
    else ([], c :: rest)
  | [] => ([], [])

/-- Fraction part of a JSON number (possibly empty). -/
def parseFracPart : List Char → Option (List Char × List Char)
  | '.' :: rest =>
    let (ds, rem) := parseDigits rest
    if ds.isEmpty then none else some ('.' :: ds, rem)
  | l => some ([], l)

/-- Exponent part of a JSON number (possibly empty). -/
def parseExpPart : List Char → Option (List Char × List Char)
  | c :: rest =>
    if c == 'e' || c == 'E' then
      let (sign, r2) :=
        match rest with
        | s :: r => if s == '+' || s == '-' then ([s], r) else ([], s :: r)
        | [] => ([], [])
      let (ds, rem) := parseDigits r2
      if ds.isEmpty then none else some (c :: (sign ++ ds), rem)
    else some ([], c :: rest)
  | [] => some ([], [])

/-- Parse a JSON number, returning its lexeme. -/
def parseNumber (l : List Char) : Option (List Char × List Char) :=
  let (neg, l1) :=
    match l with
    | '-' :: r => ([('-' : Char)], r)
    | _ => ([], l)
  match l1 with
  | c :: rest =>
    let intRes : Option (List Char × List Char) :=
      if c == '0' then some ([c], rest)
      else if '1' ≤ c ∧ c ≤ '9' then
        let (ds, rem) := parseDigits rest
        some (c :: ds, rem)
      else none
    match intRes with
    | none => none
    | some (ip, r1) =>
      match parseFracPart r1 with
      | none => none
      | some (fp, r2) =>
        match parseExpPart r2 with
        | none => none
        | some (ep, r3) => some (neg ++ ip ++ fp ++ ep, r3)
  | [] => none

/-- Parsing mode: a single value, the members of an object, or the elements
of an array. -/
inductive PMode where
  | val
  | members (acc : List (String × Json))
  | elems (acc : List Json)

/-- Recursive-descent JSON parser. The fuel only bounds recursion depth:
every recursive call first consumes at least one input character, so
`length + 1` fuel never runs out. -/
def parseCore (fuel : Nat) (mode : PMode) (l : List Char) : Option (Json × List Char) :=
  match fuel with
  | 0 => none
  | fuel + 1 =>
    match mode with
    | .val =>
      match l with
      | [] => none
      | c :: rest =>
        if c == '\x7b' then
          match skipWs rest with
          | '\x7d' :: r => some (.obj [], r)
          | l2 => parseCore fuel (.members []) l2
        else if c == '[' then
          match skipWs rest with
          | ']' :: r => some (.arr [], r)
          | l2 => parseCore fuel (.elems []) l2
        else if c == '"' then
          match parseStringUnits (rest.length + 1) rest with
          | none => none
          | some (us, rem) => some (.str (String.mk (unitsToChars us)), rem)
        else if c == 't' then
          match l with
          | 't' :: 'r' :: 'u' :: 'e' :: r => some (.bool true, r)
          | _ => none
        else if c == 'f' then
          match l with
          | 'f' :: 'a' :: 'l' :: 's' :: 'e' :: r => some (.bool false, r)
          | _ => none
        else if c == 'n' then
          match l with
          | 'n' :: 'u' :: 'l' :: 'l' :: r => some (.null, r)
          | _ => none
        else
          match parseNumber l with
          | none => none
          | some (lex, rem) => some (.num (String.mk lex), rem)
    | .members acc =>
      match l with
      | '"' :: rest =>
        match parseStringUnits (rest.length + 1) rest with
        | none => none
        | some (us, r1) =>
          let key := String.mk (unitsToChars us)
          match skipWs r1 with
          | ':' :: r2 =>
            match parseCore fuel .val (skipWs r2) with
            | none => none
            | some (v, r3) =>
              match skipWs r3 with
              | ',' :: r4 => parseCore fuel (.members (acc ++ [(key, v)])) (skipWs r4)
              | '\x7d' :: r4 => some (.obj (acc ++ [(key, v)]), r4)
              | _ => none
          | _ => none
      | _ => none
    | .elems acc =>
      match parseCore fuel .val l with
      | none => none
      | some (v, r1) =>
        match skipWs r1 with
        | ',' :: r2 => parseCore fuel (.elems (acc ++ [v])) (skipWs r2)
        | ']' :: r2 => some (.arr (acc ++ [v]), r2)
        | _ => none

/-- `JSON.parse`: parse a complete JSON text, allowing surrounding
whitespace; `none` models the thrown `SyntaxError`. -/
def parseJson (l : List Char) : Option Json :=
  match parseCore (l.length + 1) .val (skipWs l) with
  | none => none
  | some (v, rest) => if (skipWs rest).isEmpty then some v else none

/-! ### `GraphService.validateToken` -/

/-- The value of the last `"aud"` member of an object (later duplicate keys
win, as in `JSON.parse`). -/
def lookupAud : List (String × Json) → Option Json
  | [] => none
  | (k, v) :: rest =>
    match lookupAud rest with
    | some r => some r
    | none => if k == "aud" then some v else none

/-- JavaScript property read `payload.aud` on the parse result: on an object
it yields the value of its `"aud"` member, on `null` it throws, on every
other value it yields `undefined`. The outer `Option` is the throw, the
inner one is `undefined` versus a value. -/
def audProperty : Json → Option (Option Json)
  | .null => none
  | .obj kvs => some (lookupAud kvs)
  | _ => some none

/-- Lines 146–150 of the source: build the `audiences` array
(`Array.isArray(payload.aud) ? payload.aud : [payload.aud]`) and test
`audiences.includes("https://graph.microsoft.com")`. `none` is a thrown
error (payload is `null`); `some b` is the boolean outcome. -/
def audiencesInclude (payload : Json) : Option Bool :=
  match audProperty payload with
  | none => none
  | some aud =>
    match aud with
    | some (.arr xs) => some (xs.any (fun v => v.eqStr GRAPH_AUDIENCE))
    | some v => some (v.eqStr GRAPH_AUDIENCE)
    | none => some false

/-- `GraphService.validateToken`: split on dots, require exactly three
segments, base64-decode the middle segment, parse it as JSON and require the
audience to include the Graph URI; any thrown error is caught and yields
`undefined` (`none`), success returns the input token itself. -/
def validateToken (token : String) : Option String :=
  let tokenSplits := splitOnChar '.' token.toList
  if tokenSplits.length ≠ 3 then none
  else
    match atob (tokenSplits.getD 1 []) with
    | none => none
    | some decoded =>
      match parseJson decoded with
      | none => none
      | some payload =>
        match audiencesInclude payload with
        | none => none
        | some ok => if ok then some token else none

/-! ### Environment, collaborators and service state -/

/-- The environment variables the service reads. `none` is an unset
variable; `some ""` is a variable set to the empty string (which JavaScript
truthiness checks treat like an unset one). -/
structure Env where
  authToken : Option String
  azureTenantId : Option String
  azureClientId : Option String
  azureClientSecret : Option String
deriving DecidableEq

/-- JavaScript truthiness of an environment variable: `some` value exactly
when the variable is set to a non-empty string. -/
def envTruthy : Option String → Option String
  | some s => if s == "" then none else some s
  | none => none

/-- Outcome of one `msalApp.acquireTokenByClientCredential` call: the
promise rejects with an error, resolves to `null`, or resolves to a result
carrying an access token. -/
inductive IssuerOutcome where
  | throws (msg : String)
  | nullResult
  | token (accessToken : String)
deriving DecidableEq

/-- Outcome of the `client.api("/organization").get()` probe. -/
inductive ProbeOutcome where
  | ok
  | fails
deriving DecidableEq

/-- The auth provider installed on a constructed Graph client: a fixed
validated token, or the dynamic `() => this.acquireToken()` supplier. -/
inductive AuthProvider where
  | fixedToken (token : String)
  | msalBacked
deriving DecidableEq

/-- A Graph client instance; `id` is its construction identity (each
`Client.initWithMiddleware` call yields a fresh one). -/
structure Client where
  id : Nat
  provider : AuthProvider
deriving DecidableEq

/-- The `ConfidentialClientApplication` configuration captured when the
MSAL application is constructed. -/
structure MsalApp where
  tenantId : String
  clientId : String
  clientSecret : String
deriving DecidableEq

/-- The mutable fields of the `GraphService` singleton, plus a counter
supplying fresh client identities. -/
structure ServiceState where
  client : Option Client
  isInitialized : Bool
  msalApp : Option MsalApp
  nextClientId : Nat
deriving DecidableEq

/-- The state of a fresh `GraphService` instance. -/
def initState : ServiceState :=
  { client := none, isInitialized := false, msalApp := none, nextClientId := 0 }

/-- Observable side effects of one `initializeClient` call: whether the
`AZURE_TENANT_ID`/`AZURE_CLIENT_ID`/`AZURE_CLIENT_SECRET` variables were
read, and whether the issuer was called. -/
structure InitEffects where
  readCredVars : Bool
  issuerCalled : Bool
deriving DecidableEq

/-- An `initializeClient` call that performed neither effect. -/
def noEffects : InitEffects := { readCredVars := false, issuerCalled := false }

/-- The `AuthStatus` record returned by `getAuthStatus`. Fields absent from
the literal `\x7b isAuthenticated: false \x7d` are `undefined` (`none`). -/
structure AuthStatus where
  isAuthenticated : Bool
  tenantId : Option String
  clientId : Option String
deriving DecidableEq

/-- `GraphService.initializeClient`, lines 25–84 of the source: no-op when
already initialized; otherwise static-token mode when `AUTH_TOKEN` is
truthy (constructing a fixed-token client only when validation succeeds,
and returning without touching the credential variables either way), else
client-credential mode: read the three `AZURE_*` variables, bail out if any
is falsy, construct the MSAL application, ask the issuer for a token, and
on a non-null result construct an MSAL-backed client. Thrown errors are
caught and logged. -/
def initializeClient (env : Env) (issuer : IssuerOutcome) (s : ServiceState) :
    ServiceState × InitEffects :=
  if s.isInitialized then (s, noEffects)
  else
    match envTruthy env.authToken with
    | some envToken =>
      match validateToken envToken with
      | some validatedToken =>
        ({ s with
            client := some { id := s.nextClientId, provider := .fixedToken validatedToken }
            isInitialized := true
            nextClientId := s.nextClientId + 1 }, noEffects)
      | none => (s, noEffects)
    | none =>
      match envTruthy env.azureTenantId, envTruthy env.azureClientId,
          envTruthy env.azureClientSecret with
      | some tenantId, some clientId, some clientSecret =>
        let s1 := { s with msalApp := some { tenantId, clientId, clientSecret } }
        match issuer with
        | .throws _ => (s1, { readCredVars := true, issuerCalled := true })
        | .nullResult => (s1, { readCredVars := true, issuerCalled := true })
        | .token _ =>
          ({ s1 with
              client := some { id := s.nextClientId, provider := .msalBacked }
              isInitialized := true
              nextClientId := s.nextClientId + 1 },
            { readCredVars := true, issuerCalled := true })
      | _, _, _ => (s, { readCredVars := true, issuerCalled := false })

/-- The message of the error `getClient` throws when no client exists. -/
def notAuthenticatedMsg : String :=
  "Not authenticated. Check AZURE_TENANT_ID, AZURE_CLIENT_ID, and AZURE_CLIENT_SECRET environment variables."

/-- The message of the error `acquireToken` throws when the issuer returns
no result. -/
def acquireFailedMsg : String :=
  "Failed to acquire access token. Check AZURE_TENANT_ID, AZURE_CLIENT_ID, and AZURE_CLIENT_SECRET."

/-- `GraphService.acquireToken`, lines 86–102: throw when `msalApp` is
unset; otherwise call the issuer, propagating a rejection unchanged,
turning a `null` result into the descriptive error, and returning the
access token on success. The boolean records whether the issuer was
called. -/
def acquireToken (issuer : IssuerOutcome) (s : ServiceState) :
    Except String String × Bool :=
  match s.msalApp with
  | none => (.error "MSAL not initialized", false)
  | some _ =>
    match issuer with
    | .throws msg => (.error msg, true)
    | .nullResult => (.error acquireFailedMsg, true)
    | .token accessToken => (.ok accessToken, true)

/-- One invocation of the `getAccessToken` supplier installed on a client:
a fixed-token client resolves to its captured token without any issuer
call; an MSAL-backed client runs `acquireToken`. -/
def getAccessToken (issuer : IssuerOutcome) (s : ServiceState) (c : Client) :
    Except String String × Bool :=
  match c.provider with
  | .fixedToken token => (.ok token, false)
  | .msalBacked => acquireToken issuer s

/-- `GraphService.getAuthStatus`, lines 104–122: run `initializeClient`;
without a client report unauthenticated; with one, probe `/organization`
and on success report authenticated together with the tenant and client ids
read from the live environment, on failure report unauthenticated, leaving
the state untouched. -/
def getAuthStatus (env : Env) (issuer : IssuerOutcome) (probe : ProbeOutcome)
    (s : ServiceState) : ServiceState × AuthStatus :=
  let s1 := (initializeClient env issuer s).1
  match s1.client with
  | none => (s1, { isAuthenticated := false, tenantId := none, clientId := none })
  | some _ =>
    match probe with
    | .ok =>
      (s1, { isAuthenticated := true, tenantId := env.azureTenantId,
             clientId := env.azureClientId })
    | .fails =>
      (s1, { isAuthenticated := false, tenantId := none, clientId := none })

/-- `GraphService.getClient`, lines 124–133: run `initializeClient`; throw
the descriptive error when no client exists, otherwise return the stored
client. -/
def getClient (env : Env) (issuer : IssuerOutcome) (s : ServiceState) :
    ServiceState × Except String Client :=
  let s1 := (initializeClient env issuer s).1
  match s1.client with
  | none => (s1, .error notAuthenticatedMsg)
  | some c => (s1, .ok c)

/-- `GraphService.isAuthenticated`, lines 135–137:
`!!this.client && this.isInitialized`. -/
def isAuthenticated (s : ServiceState) : Bool :=
  s.client.isSome && s.isInitialized

/-! ### Call traces and reachable states -/

/-- One public call to the service, together with the environment and
collaborator outcomes it observes. -/
inductive Call where
  | authStatus (env : Env) (issuer : IssuerOutcome) (probe : ProbeOutcome)
  | clientCall (env : Env) (issuer : IssuerOutcome)

/-- The state after one public call. -/
def runCall : Call → ServiceState → ServiceState
  | .authStatus env issuer probe, s => (getAuthStatus env issuer probe s).1
  | .clientCall env issuer, s => (getClient env issuer s).1

/-- The state after a sequence of public calls. -/
def runCalls : List Call → ServiceState → ServiceState
  | [], s => s
  | c :: cs, s => runCalls cs (runCall c s)

/-- States a `GraphService` instance can actually be in: reachable from the
fresh state by public calls. -/
inductive Reachable : ServiceState → Prop where
  | init : Reachable initState
  | step (c : Call) {s : ServiceState} : Reachable s → Reachable (runCall c s)

/-- The credential mode of §3 of the design document. -/
inductive CredMode where
  | staticToken
  | clientCredential
deriving DecidableEq

/-- The mode active in a state: determined by the provider installed on the
constructed client; no client, no active mode. -/
def activeMode (s : ServiceState) : Option CredMode :=
  match s.client with
  | none => none
  | some c =>
    match c.provider with
    | .fixedToken _ => some .staticToken
    | .msalBacked => some .clientCredential

/-! ### Substring test used for error-message claims -/

/-- `isPrefixList p l`: `p` is a prefix of `l`. -/
def isPrefixList : List Char → List Char → Bool
  | [], _ => true
  | _ :: _, [] => false
  | p :: ps, c :: cs => p == c && isPrefixList ps cs

/-- `hasSubstring pat l`: some suffix of `l` starts with `pat`. -/
def hasSubstring (pat : List Char) : List Char → Bool
  | [] => isPrefixList pat []
  | c :: cs => isPrefixList pat (c :: cs) || hasSubstring pat cs

/-- `containsStr s pat`: `pat` occurs as a contiguous substring of `s`. -/
def containsStr (s pat : String) : Bool :=
  hasSubstring pat.toList s.toList

/-! ### Spec-side formulations (written from the specification's words) -/

/-- Spec wording for the audience condition of claim C1: the audience claim
`aud` of the payload either equals the literal Graph URI or is an array
containing it; an absent or mismatched audience does not match. -/
def audClaimMatches (j : Json) : Bool :=
  match j with
  | .obj kvs =>
    match lookupAud kvs with
    | some (.str s) => s == GRAPH_AUDIENCE
    | some (.arr xs) => xs.any (fun v => v.eqStr GRAPH_AUDIENCE)
    | _ => false
  | _ => false

/-- Spec wording for when token validation must succeed: exactly three
dot-separated segments, and the middle segment base64-decodes to JSON whose
audience claim contains the Graph URI. -/
def specTokenValid (token : String) : Bool :=
  let parts := splitOnChar '.' token.toList
  parts.length == 3 &&
    match (atob (parts.getD 1 [])).bind parseJson with
    | some j => audClaimMatches j
    | none => false

/-! ### Concrete fixtures used by witnesses and counterexamples -/

/-- A three-segment token whose payload is the base64 encoding of
`\x7b"aud":"https://graph.microsoft.com"\x7d`. -/
def validTok : String := "h.eyJhdWQiOiJodHRwczovL2dyYXBoLm1pY3Jvc29mdC5jb20ifQ==.s"

/-- Base64 encoding of
`\x7b"aud":"https://graph.microsoft.com","exp":0\x7d`: a payload with the
right audience and an expiry claim. -/
def expiredPayloadB64 : String :=
  "eyJhdWQiOiJodHRwczovL2dyYXBoLm1pY3Jvc29mdC5jb20iLCJleHAiOjB9"

/-- An environment with no variables set at all. -/
def envEmpty : Env :=
  { authToken := none, azureTenantId := none, azureClientId := none,
    azureClientSecret := none }

/-- An environment whose only variable is a valid static token. -/
def envStatic : Env :=
  { authToken := some validTok, azureTenantId := none, azureClientId := none,
    azureClientSecret := none }

/-- An environment with a malformed (single-segment) static token and full
client-credential configuration. -/
def envBadTok : Env :=
  { authToken := some "abc", azureTenantId := some "t", azureClientId := some "c",
    azureClientSecret := some "s" }

/-- An environment where `AUTH_TOKEN` is set to the empty string alongside
full client-credential configuration. -/
def envEmptyTok : Env :=
  { authToken := some "", azureTenantId := some "t", azureClientId := some "c",
    azureClientSecret := some "s" }

/-- A client-credential environment with tenant `t` and client `c`. -/
def envCred : Env :=
  { authToken := none, azureTenantId := some "t", azureClientId := some "c",
    azureClientSecret := some "s" }

/-- A client-credential environment with different, older identifiers. -/
def envCredOld : Env :=
  { authToken := none, azureTenantId := some "old-t", azureClientId := some "old-c",
    azureClientSecret := some "old-s" }

/-- A state initialized in static-token mode from the fresh state. -/
def stStatic : ServiceState :=
  runCall (Call.clientCall envStatic IssuerOutcome.nullResult) initState

/-- A state initialized in client-credential mode from the fresh state. -/
def stCred : ServiceState :=
  runCall (Call.clientCall envCredOld (IssuerOutcome.token "tok")) initState

/-- The client constructed by the initialization leading to `stCred`. -/
def credClient : Client := { id := 0, provider := AuthProvider.msalBacked }

/-- First call of the C7 counterexample trace: no configuration present. -/
def callNoCfg : Call := Call.clientCall envEmpty IssuerOutcome.nullResult

/-- Second call of the C7 counterexample trace: the environment now carries
a valid static token. -/
def callStatic : Call := Call.clientCall envStatic IssuerOutcome.nullResult

/-- An environment holding only the tenant and client identifiers, used to
exercise live-environment reads. -/
def envLive : Env :=
  { authToken := none, azureTenantId := some "t", azureClientId := some "c",
    azureClientSecret := none }

/-- State invariant maintained by every public call: the client exists
exactly when the initialized flag is set, and an MSAL-backed client is only
installed while an MSAL application exists. -/
def StateInv (s : ServiceState) : Prop :=
  s.client.isSome = s.isInitialized ∧
  (∀ c, s.client = some c → c.provider = AuthProvider.msalBacked →
    s.msalApp.isSome = true)

/-! ### Helper lemmas -/

theorem audiencesInclude_some_true_iff (j : Json) :
    audiencesInclude j = some true ↔ audClaimMatches j = true := by
  cases j <;> simp [audiencesInclude, audProperty, audClaimMatches, Json.eqStr]
  case obj kvs =>
    cases h : lookupAud kvs with
    | none => simp
    | some v => cases v <;> simp [Json.eqStr]

theorem splitOnChar_ne_nil (sep : Char) (l : List Char) : splitOnChar sep l ≠ [] := by
  cases l with
  | nil => simp [splitOnChar]
  | cons x xs =>
    rw [splitOnChar]
    rcases hsp : splitOnChar sep xs with _ | ⟨r, rs⟩
    · simp
    · by_cases hx : x == sep <;> simp [hx]

theorem splitOnChar_no_sep {sep : Char} {l : List Char} (h : sep ∉ l) :
    splitOnChar sep l = [l] := by
  induction l with
  | nil => rfl
  | cons x xs ih =>
    have hx : ¬(x == sep) = true := by
      simp only [beq_iff_eq]
      intro e
      exact h (e ▸ List.mem_cons_self x xs)
    have h' : sep ∉ xs := fun m => h (List.mem_cons_of_mem _ m)
    rw [splitOnChar, ih h']
    simp [hx]

theorem splitOnChar_append {sep : Char} {a : List Char} (rest : List Char) (h : sep ∉ a) :
    splitOnChar sep (a ++ sep :: rest) = a :: splitOnChar sep rest := by
  induction a with
  | nil =>
    rw [List.nil_append, splitOnChar]
    rcases hsp : splitOnChar sep rest with _ | ⟨r, rs⟩
    · exact absurd hsp (splitOnChar_ne_nil sep rest)
    · simp [hsp]
  | cons x xs ih =>
    have hx : ¬(x == sep) = true := by
      simp only [beq_iff_eq]
      intro e
      exact h (e ▸ List.mem_cons_self x xs)
    have h' : sep ∉ xs := fun m => h (List.mem_cons_of_mem _ m)
    rw [List.cons_append, splitOnChar, ih h']
    simp [hx]

theorem initializeClient_of_initialized (env : Env) (issuer : IssuerOutcome)
    {s : ServiceState} (h : s.isInitialized = true) :
    initializeClient env issuer s = (s, noEffects) := by
  unfold initializeClient
  simp [h]

theorem getAuthStatus_fst (env : Env) (issuer : IssuerOutcome) (probe : ProbeOutcome)
    (s : ServiceState) :
    (getAuthStatus env issuer probe s).1 = (initializeClient env issuer s).1 := by
  unfold getAuthStatus
  cases hc : (initializeClient env issuer s).1.client with
  | none => simp [hc]
  | some c => cases probe <;> simp [hc]

theorem getClient_fst (env : Env) (issuer : IssuerOutcome) (s : ServiceState) :
    (getClient env issuer s).1 = (initializeClient env issuer s).1 := by
  unfold getClient
  cases hc : (initializeClient env issuer s).1.client with
  | none => simp [hc]
  | some c => simp [hc]

theorem stateInv_initState : StateInv initState := by
  constructor
  · rfl
  · intro c hc
    exact absurd hc (by simp [initState])

theorem inv_preserved (env : Env) (issuer : IssuerOutcome) (s : ServiceState)
    (h : StateInv s) : StateInv (initializeClient env issuer s).1 := by
  obtain ⟨h1, h2⟩ := h
  unfold initializeClient
  split
  · exact ⟨h1, h2⟩
  · split
    · split
      · constructor
        · simp
        · intro c hc hp
          simp at hc
          rw [← hc] at hp
          exact absurd hp (by simp)
      · exact ⟨h1, h2⟩
    · split
      · split
        · exact ⟨by simpa using h1, fun c hc hp => by simp⟩
        · exact ⟨by simpa using h1, fun c hc hp => by simp⟩
        · constructor
          · simp
          · intro c hc hp
            simp
      · exact ⟨h1, h2⟩

theorem reachable_stateInv {s : ServiceState} (h : Reachable s) : StateInv s := by
  induction h with
  | init => exact stateInv_initState
  | step c h ih =>
    cases c with
    | authStatus env issuer probe =>
      rw [runCall, getAuthStatus_fst]
      exact inv_preserved env issuer _ ih
    | clientCall env issuer =>
      rw [runCall, getClient_fst]
      exact inv_preserved env issuer _ ih

theorem runCall_of_initialized {s : ServiceState} (h : s.isInitialized = true)
    (c : Call) : runCall c s = s := by
  cases c with
  | authStatus env issuer probe =>
    rw [runCall, getAuthStatus_fst, initializeClient_of_initialized env issuer h]
  | clientCall env issuer =>
    rw [runCall, getClient_fst, initializeClient_of_initialized env issuer h]

theorem runCalls_of_initialized {s : ServiceState} (h : s.isInitialized = true)
    (cs : List Call) : runCalls cs s = s := by
  induction cs with
  | nil => rfl
  | cons c cs ih => rw [runCalls, runCall_of_initialized h, ih]

theorem getClient_of_initialized (env : Env) (issuer : IssuerOutcome)
    {s : ServiceState} {c : Client} (h : s.isInitialized = true)
    (hc : s.client = some c) :
    getClient env issuer s = (s, Except.ok c) := by
  unfold getClient
  rw [initializeClient_of_initialized env issuer h]
  simp [hc]

theorem getAuthStatus_fails_of_client (env : Env) (issuer : IssuerOutcome)
    {s : ServiceState} {c : Client} (h : s.isInitialized = true)
    (hc : s.client = some c) :
    getAuthStatus env issuer ProbeOutcome.fails s
      = (s, { isAuthenticated := false, tenantId := none, clientId := none }) := by
  unfold getAuthStatus
  rw [initializeClient_of_initialized env issuer h]
  simp [hc]

/-! ### Claim theorems -/

/-- Claim C1: `validateToken` succeeds, returning the input token unchanged,
exactly when the token has three dot-separated segments and its middle
segment base64-decodes to JSON whose audience claim equals the Graph URI or
is an array containing it; on every other input it returns nothing. -/
theorem validateToken_matches_spec (token : String) :
    validateToken token = if specTokenValid token then some token else none := by
  unfold validateToken specTokenValid
  simp only [String.toList]
  by_cases hlen : (splitOnChar '.' token.data).length = 3
  · simp only [hlen, ne_eq, not_true_eq_false, if_false, beq_self_eq_true, Bool.true_and]
    cases hat : atob ((splitOnChar '.' token.data).getD 1 []) with
    | none => simp [hat]
    | some dec =>
      cases hpj : parseJson dec with
      | none => simp [hat, hpj]
      | some j =>
        simp only [hat, hpj, Option.bind_some]
        cases hai : audiencesInclude j with
        | none =>
          have hcm : ¬audClaimMatches j = true := by
            intro hc
            rw [← audiencesInclude_some_true_iff, hai] at hc
            exact Option.noConfusion hc
          simp [hpj, hcm]
        | some b =>
          cases b with
          | true =>
            have hcm : audClaimMatches j = true := (audiencesInclude_some_true_iff j).mp hai
            simp [hpj, hcm]
          | false =>
            have hcm : ¬audClaimMatches j = true := by
              intro hc
              rw [← audiencesInclude_some_true_iff, hai] at hc
              simp at hc
            simp [hpj, hcm]
  · simp [hlen]

/-- Claim C2 (amended): when `AUTH_TOKEN` is set to a non-empty string,
`initializeClient` neither reads the three `AZURE_*` credential variables
nor calls the issuer, and an invalid token leaves the uninitialized state
unchanged instead of falling through to client-credential mode. -/
theorem auth_token_present_disables_credential_flow
    (env : Env) (issuer : IssuerOutcome) (s : ServiceState) (t : String)
    (ht : env.authToken = some t) (hne : t ≠ "") :
    (initializeClient env issuer s).2 = noEffects ∧
    (s.isInitialized = false → validateToken t = none →
      (initializeClient env issuer s).1 = s) := by
  have htr : envTruthy env.authToken = some t := by
    rw [ht]
    unfold envTruthy
    simp [hne]
  unfold initializeClient
  by_cases hi : s.isInitialized = true
  · simp [hi]
  · have hi' : s.isInitialized = false := by simpa using hi
    rw [hi']
    rw [htr]
    cases hv : validateToken t with
    | some v => simp [hv]
    | none => simp [hv]

/-- Claim C2, counterexample to the claim as stated: with `AUTH_TOKEN` set
(to the empty string) and credential configuration present, initialization
reads the credential variables, calls the issuer, and even completes in
client-credential mode. -/
theorem auth_token_empty_string_counterexample :
    envEmptyTok.authToken = some "" ∧
    (initializeClient envEmptyTok (IssuerOutcome.token "tok") initState).2
      = { readCredVars := true, issuerCalled := true } ∧
    (initializeClient envEmptyTok (IssuerOutcome.token "tok") initState).1.isInitialized
      = true ∧
    activeMode (initializeClient envEmptyTok (IssuerOutcome.token "tok") initState).1
      = some CredMode.clientCredential :=
  ⟨rfl, rfl, rfl, rfl⟩

/-- Claim C2, witness: a malformed non-empty `AUTH_TOKEN` produces no
credential-variable read, no issuer call, and an unchanged state. -/
theorem auth_token_present_disables_credential_flow_witness :
    (initializeClient envBadTok IssuerOutcome.nullResult initState).2 = noEffects ∧
    (initializeClient envBadTok IssuerOutcome.nullResult initState).1 = initState :=
  ⟨(auth_token_present_disables_credential_flow envBadTok IssuerOutcome.nullResult
      initState "abc" rfl (by decide)).1,
   (auth_token_present_disables_credential_flow envBadTok IssuerOutcome.nullResult
      initState "abc" rfl (by decide)).2 rfl rfl⟩

/-- Claim C3: once initialized, every further call leaves the state
untouched and `getClient` keeps returning the identical client instance; in
an uninitialized state every call re-attempts initialization (here: a call
seeing a valid static token initializes). -/
theorem initialization_idempotent (s : ServiceState) (hr : Reachable s) :
    (s.isInitialized = true →
      (∀ cs, runCalls cs s = s) ∧
      ∃ c, s.client = some c ∧
        ∀ env issuer, getClient env issuer s = (s, Except.ok c)) ∧
    (s.isInitialized = false →
      ∀ env issuer t, envTruthy env.authToken = some t → validateToken t = some t →
        (getClient env issuer s).1.isInitialized = true) := by
  constructor
  · intro hi
    refine ⟨runCalls_of_initialized hi, ?_⟩
    have h1 := (reachable_stateInv hr).1
    rw [hi] at h1
    obtain ⟨c, hc⟩ := Option.isSome_iff_exists.mp h1
    exact ⟨c, hc, fun env issuer => getClient_of_initialized env issuer hi hc⟩
  · intro hi env issuer t htr hv
    rw [getClient_fst]
    unfold initializeClient
    simp [hi, htr, hv]

/-- Claim C3, witness: a further call on an initialized state is a no-op. -/
theorem initialization_idempotent_witness :
    runCalls [callNoCfg] stStatic = stStatic :=
  ((initialization_idempotent stStatic
      (Reachable.step callStatic Reachable.init)).1 rfl).1 [callNoCfg]

/-- Claim C4: in any reachable state holding a client, a failing probe makes
`getAuthStatus` report unauthenticated while changing nothing, so a
subsequent `getClient` still returns the same client and initialization is
not re-run. -/
theorem probe_failure_preserves_session (s : ServiceState) (hr : Reachable s)
    (c : Client) (hc : s.client = some c) (env env2 : Env)
    (issuer issuer2 : IssuerOutcome) :
    getAuthStatus env issuer ProbeOutcome.fails s
      = (s, { isAuthenticated := false, tenantId := none, clientId := none }) ∧
    getClient env2 issuer2 s = (s, Except.ok c) ∧
    initializeClient env2 issuer2 s = (s, noEffects) := by
  have hi : s.isInitialized = true := by
    have h1 := (reachable_stateInv hr).1
    rw [hc] at h1
    simpa using h1.symm
  exact ⟨getAuthStatus_fails_of_client env issuer hi hc,
         getClient_of_initialized env2 issuer2 hi hc,
         initializeClient_of_initialized env2 issuer2 hi⟩

/-- Claim C4, witness: concrete probe failure on a static-token session. -/
theorem probe_failure_preserves_session_witness :
    getAuthStatus envEmpty IssuerOutcome.nullResult ProbeOutcome.fails stStatic
      = (stStatic, { isAuthenticated := false, tenantId := none, clientId := none }) ∧
    getClient envEmpty IssuerOutcome.nullResult stStatic
      = (stStatic, Except.ok { id := 0, provider := AuthProvider.fixedToken validTok }) ∧
    initializeClient envEmpty IssuerOutcome.nullResult stStatic
      = (stStatic, noEffects) :=
  probe_failure_preserves_session stStatic (Reachable.step callStatic Reachable.init)
    { id := 0, provider := AuthProvider.fixedToken validTok } rfl envEmpty envEmpty
    IssuerOutcome.nullResult IssuerOutcome.nullResult

/-- Claim C5: whenever initialization cannot produce a client, `getClient`
fails with the fixed error message, which names all three credential
variables. -/
theorem getClient_failure_names_variables (env : Env) (issuer : IssuerOutcome)
    (s : ServiceState) (h : (initializeClient env issuer s).1.client = none) :
    (getClient env issuer s).2 = Except.error notAuthenticatedMsg ∧
    containsStr notAuthenticatedMsg "AZURE_TENANT_ID" = true ∧
    containsStr notAuthenticatedMsg "AZURE_CLIENT_ID" = true ∧
    containsStr notAuthenticatedMsg "AZURE_CLIENT_SECRET" = true := by
  refine ⟨?_, rfl, rfl, rfl⟩
  unfold getClient
  simp [h]

/-- Claim C5, witness: with no configuration at all, `getClient` rejects
with the message naming the three variables. -/
theorem getClient_failure_names_variables_witness :
    (getClient envEmpty IssuerOutcome.nullResult initState).2
      = Except.error notAuthenticatedMsg ∧
    containsStr notAuthenticatedMsg "AZURE_TENANT_ID" = true ∧
    containsStr notAuthenticatedMsg "AZURE_CLIENT_ID" = true ∧
    containsStr notAuthenticatedMsg "AZURE_CLIENT_SECRET" = true :=
  getClient_failure_names_variables envEmpty IssuerOutcome.nullResult initState rfl

/-- Claim C6: when the probe succeeds, `getAuthStatus` reports
authenticated with the tenant and client identifiers read from the
environment of that very call, whatever values any earlier initialization
captured in the state. -/
theorem getAuthStatus_reads_live_environment (env : Env) (issuer : IssuerOutcome)
    (s : ServiceState) (h : (initializeClient env issuer s).1.client.isSome = true) :
    (getAuthStatus env issuer ProbeOutcome.ok s).2
      = { isAuthenticated := true, tenantId := env.azureTenantId,
          clientId := env.azureClientId } := by
  obtain ⟨c, hc⟩ := Option.isSome_iff_exists.mp h
  unfold getAuthStatus
  simp [hc]

/-- Claim C6, witness: a session initialized under old identifiers reports
the live values `t` and `c`. -/
theorem getAuthStatus_reads_live_environment_witness :
    (getAuthStatus envLive IssuerOutcome.nullResult ProbeOutcome.ok stCred).2
      = { isAuthenticated := true, tenantId := some "t", clientId := some "c" } :=
  getAuthStatus_reads_live_environment envLive IssuerOutcome.nullResult stCred rfl

/-- Claim C7 (amended): the credential mode is selected at the first
initialization attempt that succeeds — before that no mode is active — and
once a mode is active no later call changes it, whatever environments those
calls observe. -/
theorem mode_fixed_after_first_success (s : ServiceState) (hr : Reachable s) :
    (s.isInitialized = false → activeMode s = none) ∧
    (s.isInitialized = true →
      ∀ cs, activeMode (runCalls cs s) = activeMode s ∧ runCalls cs s = s) := by
  constructor
  · intro hi
    have h1 := (reachable_stateInv hr).1
    rw [hi] at h1
    have hcn : s.client = none := by
      cases hc : s.client with
      | none => rfl
      | some c => rw [hc] at h1; simp at h1
    unfold activeMode
    rw [hcn]
  · intro hi cs
    rw [runCalls_of_initialized hi]
    exact ⟨rfl, rfl⟩

/-- Claim C7, counterexample to the claim as stated: the first
initialization attempt (no configuration) selects no mode, and a second
attempt under a changed environment activates static-token mode, so the
mode is not fixed at the first attempt. -/
theorem mode_selected_later_counterexample :
    activeMode (runCall callNoCfg initState) = none ∧
    activeMode (runCall callStatic (runCall callNoCfg initState))
      = some CredMode.staticToken :=
  ⟨rfl, rfl⟩

/-- Claim C7, witness: once static-token mode is active, a later call under
a different environment leaves the mode unchanged. -/
theorem mode_fixed_after_first_success_witness :
    activeMode (runCalls [callNoCfg] stStatic) = activeMode stStatic ∧
    runCalls [callNoCfg] stStatic = stStatic :=
  (mode_fixed_after_first_success stStatic
      (Reachable.step callStatic Reachable.init)).2 rfl [callNoCfg]

/-- Claim C8 (amended): on an MSAL-backed client in a reachable state,
every `getAccessToken` invocation performs a fresh issuer call; an issuer
call returning no result raises the error naming the three credential
variables, while an issuer exception propagates unchanged, and a returned
token is passed through. -/
theorem dynamic_token_supplier (s : ServiceState) (hr : Reachable s)
    (c : Client) (hc : s.client = some c)
    (hp : c.provider = AuthProvider.msalBacked) :
    (∀ issuer, (getAccessToken issuer s c).2 = true) ∧
    ((getAccessToken IssuerOutcome.nullResult s c).1 = Except.error acquireFailedMsg ∧
      containsStr acquireFailedMsg "AZURE_TENANT_ID" = true ∧
      containsStr acquireFailedMsg "AZURE_CLIENT_ID" = true ∧
      containsStr acquireFailedMsg "AZURE_CLIENT_SECRET" = true) ∧
    (∀ msg, (getAccessToken (IssuerOutcome.throws msg) s c).1 = Except.error msg) ∧
    (∀ tok, (getAccessToken (IssuerOutcome.token tok) s c).1 = Except.ok tok) := by
  have hm : s.msalApp.isSome = true := (reachable_stateInv hr).2 c hc hp
  obtain ⟨app, hap⟩ := Option.isSome_iff_exists.mp hm
  refine ⟨fun issuer => ?_, ⟨?_, rfl, rfl, rfl⟩, fun msg => ?_, fun tok => ?_⟩
  · unfold getAccessToken acquireToken
    rw [hp, hap]
    cases issuer <;> rfl
  · unfold getAccessToken acquireToken
    rw [hp, hap]
  · unfold getAccessToken acquireToken
    rw [hp, hap]
  · unfold getAccessToken acquireToken
    rw [hp, hap]

/-- Claim C8, counterexample to the claim as stated: an issuer exception on
a `getAccessToken` invocation in client-credential mode propagates as-is,
and its message names none of the three credential variables. -/
theorem issuer_exception_counterexample :
    stCred.client = some credClient ∧
    credClient.provider = AuthProvider.msalBacked ∧
    (getAccessToken (IssuerOutcome.throws "network error") stCred credClient).1
      = Except.error "network error" ∧
    containsStr "network error" "AZURE_TENANT_ID" = false ∧
    containsStr "network error" "AZURE_CLIENT_ID" = false ∧
    containsStr "network error" "AZURE_CLIENT_SECRET" = false :=
  ⟨rfl, rfl, rfl, rfl, rfl, rfl⟩

/-- Claim C8, witness: a fresh issuer call happens on an invocation, and a
null issuer result yields the descriptive error. -/
theorem dynamic_token_supplier_witness :
    (getAccessToken (IssuerOutcome.token "fresh") stCred credClient).2 = true ∧
    (getAccessToken IssuerOutcome.nullResult stCred credClient).1
      = Except.error acquireFailedMsg :=
  ⟨(dynamic_token_supplier stCred
      (Reachable.step (Call.clientCall envCredOld (IssuerOutcome.token "tok"))
        Reachable.init) credClient rfl rfl).1 (IssuerOutcome.token "fresh"),
   (dynamic_token_supplier stCred
      (Reachable.step (Call.clientCall envCredOld (IssuerOutcome.token "tok"))
        Reachable.init) credClient rfl rfl).2.1.1⟩

/-- Claim C9: `validateToken` looks only at the segment count and the
audience claim: any token built from dot-free header and signature segments
(possibly empty) around a payload segment that base64-decodes to JSON with
the Graph audience is accepted, whatever other claims — such as an expiry —
the payload carries. -/
theorem validateToken_shape_only (a p b : String)
    (ha : ('.' : Char) ∉ a.toList) (hp : ('.' : Char) ∉ p.toList)
    (hb : ('.' : Char) ∉ b.toList) (j : Json)
    (hdec : (atob p.toList).bind parseJson = some j)
    (haud : audClaimMatches j = true) :
    validateToken (a ++ "." ++ p ++ "." ++ b) = some (a ++ "." ++ p ++ "." ++ b) := by
  have hlist : (a ++ "." ++ p ++ "." ++ b).toList
      = a.toList ++ '.' :: (p.toList ++ '.' :: b.toList) := by
    simp [String.toList]
  have hsplit : splitOnChar '.' (a ++ "." ++ p ++ "." ++ b).toList
      = [a.toList, p.toList, b.toList] := by
    rw [hlist, splitOnChar_append _ ha, splitOnChar_append _ hp, splitOnChar_no_sep hb]
  obtain ⟨dec, hat, hpj⟩ : ∃ dec, atob p.toList = some dec ∧ parseJson dec = some j := by
    cases hat : atob p.toList with
    | none => rw [hat] at hdec; exact Option.noConfusion hdec
    | some dec => rw [hat, Option.some_bind] at hdec; exact ⟨dec, rfl, hdec⟩
  have hai : audiencesInclude j = some true := (audiencesInclude_some_true_iff j).mpr haud
  unfold validateToken
  rw [hsplit]
  simp only [String.toList] at hat
  simp [hat, hpj, hai]

/-- Claim C9, witness: empty header and signature segments around a payload
carrying the Graph audience and an expiry claim are accepted. -/
theorem validateToken_shape_only_witness :
    validateToken ("" ++ "." ++ expiredPayloadB64 ++ "." ++ "")
      = some ("" ++ "." ++ expiredPayloadB64 ++ "." ++ "") :=
  validateToken_shape_only "" expiredPayloadB64 "" (by decide) (by decide) (by decide)
    (Json.obj [("aud", Json.str GRAPH_AUDIENCE), ("exp", Json.num "0")]) rfl rfl

/-- Claim C10: in every reachable state, the initialized flag implies a
client exists, `isAuthenticated` coincides with the initialized flag, and
whenever `isAuthenticated` holds `getClient` returns a client rather than
throwing. -/
theorem client_initialized_invariant (s : ServiceState) (hr : Reachable s) :
    (s.isInitialized = true → s.client.isSome = true) ∧
    isAuthenticated s = s.isInitialized ∧
    (isAuthenticated s = true →
      ∀ env issuer, ∃ c, getClient env issuer s = (s, Except.ok c)) := by
  have h1 := (reachable_stateInv hr).1
  refine ⟨fun hi => by rw [h1, hi], ?_, ?_⟩
  · unfold isAuthenticated
    rw [h1]
    cases s.isInitialized <;> rfl
  · intro ha env issuer
    unfold isAuthenticated at ha
    have hi : s.isInitialized = true := by
      cases hh : s.isInitialized with
      | false => rw [hh] at ha; simp at ha
      | true => rfl
    have hcS : s.client.isSome = true := by rw [h1, hi]
    obtain ⟨c, hc⟩ := Option.isSome_iff_exists.mp hcS
    exact ⟨c, getClient_of_initialized env issuer hi hc⟩

/-- Claim C10, witness: on a client-credential session the state read
`isAuthenticated` agrees with the initialized flag. -/
theorem client_initialized_invariant_witness :
    isAuthenticated stCred = stCred.isInitialized :=
  (client_initialized_invariant stCred
    (Reachable.step (Call.clientCall envCredOld (IssuerOutcome.token "tok"))
      Reachable.init)).2.1
